import Mathlib

/-!
Verification development for the browser-side controllers of the
Japanese-site repository.  Each JavaScript page controller is shallowly
embedded as a Lean state type together with one Lean function per socket
handler / UI action, translated line by line from the source files
(`multi_draw.js`, the chat controller, `home.js`, `dictionary.js`, the
profile controller, `matching-2.js`).  DOM mutations are modelled as
fields of the state; `socket.emit` appends to an `emitted` message log.
-/

namespace MultiDraw

/-- One participant record of the `status` object of `multi_draw.js`
(lines 32-44): `{submitted, result, user_id, ready, points}`. -/
structure UserStatus where
  submitted : Bool
  result : Bool
  user_id : Nat
  ready : Bool
  points : Nat
deriving DecidableEq, Repr

/-- Outbound socket messages emitted by the modelled actions of
`multi_draw.js`.  The `image_data` field of `image_submit` carries the
JSON object denoted by `JSON.stringify(snapshots)`: a string-keyed,
string-valued object, modelled as its entry list in property order
(for such objects the stringify/parse round trip is the identity). -/
inductive Msg where
  | image_submit (userId : Nat) (image_data : List (String × String)) (room : Nat) (sound_num : Nat)
  | user_ready (userId otherId : Nat) (both : Bool) (room : Nat)
deriving DecidableEq, Repr

/-- The mutable page state of `multi_draw.js`: the script's global
variables plus the DOM properties the script reads or writes.  Display
and background-colour fields hold the CSS strings the code assigns;
`otherCanvasImg` is the image last drawn onto `other_canvas` (the
`img.onload` callback of `recv_img`), `canvasContent` the line segments
drawn on the local canvas, and `emitted` the log of sent messages. -/
structure MDState where
  waiting : Bool
  room : Nat
  own_id : Nat
  snapshots : List (String × String)
  strokeNum : Nat
  drawing_ : Bool
  prevX : Int
  prevY : Int
  currX : Int
  currY : Int
  canvasContent : List (Int × Int × Int × Int)
  yourself : UserStatus
  other_user : UserStatus
  kana : String
  sound : String
  sound_num : Nat
  overlayDisplay : String
  otherCanvasDisplay : String
  clrDisplay : String
  submitDisplay : String
  readyDisplay : String
  readyMsgDisplay : String
  drawingCanvasBg : String
  otherCanvasBg : String
  otherCanvasImg : Option String
  youPointsText : String
  otherPointsText : String
  drawStatement : String
  otherUserText : String
  emitted : List Msg
deriving DecidableEq, Repr

/-- The initial value of each global variable of `multi_draw.js`
(lines 11-47).  Display/colour/text fields not assigned by the script
before the page runs are taken as the empty string. -/
def initMD : MDState :=
  { waiting := true
    room := 0
    own_id := 0
    snapshots := []
    strokeNum := 0
    drawing_ := false
    prevX := 0, prevY := 0, currX := 0, currY := 0
    canvasContent := []
    yourself := { submitted := false, result := false, user_id := 0, ready := false, points := 0 }
    other_user := { submitted := false, result := false, user_id := 0, ready := false, points := 0 }
    kana := "", sound := "", sound_num := 0
    overlayDisplay := ""
    otherCanvasDisplay := ""
    clrDisplay := ""
    submitDisplay := ""
    readyDisplay := ""
    readyMsgDisplay := ""
    drawingCanvasBg := ""
    otherCanvasBg := ""
    otherCanvasImg := none
    youPointsText := ""
    otherPointsText := ""
    drawStatement := ""
    otherUserText := ""
    emitted := [] }

/-- JS object assignment `o[k] = v` for a string-keyed object: if the key
is present its value is replaced in place, otherwise the new entry is
appended (JS string keys enumerate in insertion order). -/
def objSetStr (o : List (String × String)) (k v : String) : List (String × String) :=
  match o with
  | [] => [(k, v)]
  | (k1, v1) :: rest => if k = k1 then (k, v) :: rest else (k1, v1) :: objSetStr rest k v

/-- `canvas.toDataURL()`: the browser's rasterisation of the canvas into a
data-URL string, abstracted as an injective textual encoding of the drawn
segments. -/
def toDataURL (content : List (Int × Int × Int × Int)) : String :=
  "data:image/png;base64," ++
    String.intercalate ";"
      (content.map (fun s => toString s.1 ++ "," ++ toString s.2.1 ++ "," ++
        toString s.2.2.1 ++ "," ++ toString s.2.2.2))

/-- `erase()` (multi_draw.js lines 386-401): clears the stored snapshots,
resets the stroke counter and clears the canvas. -/
def erase (s : MDState) : MDState :=
  { s with snapshots := [], strokeNum := 0, canvasContent := [] }

/-- `clear_other()` (lines 403-413): sets the other canvas background to
white and clears its drawn content. -/
def clear_other (s : MDState) : MDState :=
  { s with otherCanvasBg := "white", otherCanvasImg := none }

/-- The `recv_img` socket handler (lines 123-155): draws the received
image on `other_canvas`, marks the other user submitted, and if this
user has not submitted, hides the other canvas. -/
def recv_img (s : MDState) (image : String) : MDState :=
  { s with otherCanvasImg := some image,
           other_user := { s.other_user with submitted := true },
           otherCanvasDisplay :=
             if s.yourself.submitted = false then "none" else s.otherCanvasDisplay }

/-- The `save()` action (lines 416-442): if not still waiting for a peer,
hides the clear/submit buttons, emits the `image_submit` message carrying
the JSON-serialised snapshots, marks this user submitted and shows the
other canvas; otherwise it just calls `erase()`. -/
def save (s : MDState) : MDState :=
  if s.waiting = false then
    { s with clrDisplay := "none",
             submitDisplay := "none",
             emitted := s.emitted ++ [Msg.image_submit s.own_id s.snapshots s.room s.sound_num],
             yourself := { s.yourself with submitted := true },
             otherCanvasDisplay := "inline" }
  else
    erase s

/-- `colour_results()` (lines 444-474): only when both users have
submitted, reveals the ready button and colours each canvas red when that
user's `result` is false and green (`#67e088`) otherwise. -/
def colour_results (s : MDState) : MDState :=
  if s.yourself.submitted = true && s.other_user.submitted = true then
    { s with readyDisplay := "block",
             otherCanvasBg := if s.other_user.result = false then "red" else "#67e088",
             drawingCanvasBg := if s.yourself.result = false then "red" else "#67e088" }
  else s

/-- The `result_img` socket handler (lines 202-240): attributes the result
to whichever participant matches the carried `UserID`, adds points on a
correct result and updates the displayed total, then calls
`colour_results()`. -/
def result_img (s : MDState) (userId : Nat) (result : Bool) (points : Nat) : MDState :=
  let s1 :=
    if userId = s.own_id then
      let newPts := if result then s.yourself.points + points else s.yourself.points
      { s with
        yourself := { s.yourself with result := result, points := newPts },
        youPointsText :=
          if result then toString (s.yourself.points + points) ++ " POINTS"
          else s.youPointsText }
    else
      let newPts := if result then s.other_user.points + points else s.other_user.points
      { s with
        other_user := { s.other_user with result := result, points := newPts },
        otherPointsText :=
          if result then toString (s.other_user.points + points) ++ " POINTS"
          else s.otherPointsText }
  colour_results s1

/-- The `recv_challenge` socket handler (lines 263-305): clears both
canvases, restores the pre-submission buttons, resets the
submitted/result/ready flags of both status records, and records the new
`kana`/`sound`/`sound_num`, updating the drawing prompt. -/
def recv_challenge (s : MDState) (kana sound : String) (sound_num : Nat) : MDState :=
  let s1 := erase s
  let s2 := { s1 with drawingCanvasBg := "white" }
  let s3 := clear_other s2
  { s3 with clrDisplay := "inline",
            submitDisplay := "inline",
            readyDisplay := "none",
            readyMsgDisplay := "none",
            yourself := { s3.yourself with submitted := false, result := false, ready := false },
            other_user := { s3.other_user with submitted := false, result := false, ready := false },
            kana := kana,
            sound := sound,
            sound_num := sound_num,
            drawStatement := "Draw the character for '" ++ sound ++ "'" }

/-- The `other_connection` socket handler (lines 158-179): hides the
waiting overlay, shows the other user's name, records their id and clears
the `waiting` flag. -/
def other_connection (s : MDState) (username : String) (userId : Nat) : MDState :=
  { s with overlayDisplay := "none",
           otherUserText := username,
           other_user := { s.other_user with user_id := userId },
           waiting := false }

/-- Canvas mouse events: `down`/`move` carry the canvas-relative
coordinates (`event.clientX - canvas.offsetLeft` and the corresponding
`Y`); `up` and `out` use no coordinates. -/
inductive MouseEvt where
  | down (x y : Int)
  | up
  | out
  | move (x y : Int)
deriving DecidableEq, Repr

/-- `findcoords(res, event)` (lines 503-544): on mouse-down increments the
stroke counter, updates the coordinates and starts drawing; on mouse-up
stores the canvas raster under the key `'stroke' + strokeNum` and stops
drawing; on mouse-out stops drawing; on mouse-move while drawing updates
the coordinates and draws a segment from the previous to the current
point. -/
def findcoords (s : MDState) : MouseEvt → MDState
  | MouseEvt.down x y =>
      { s with strokeNum := s.strokeNum + 1,
               prevX := s.currX, prevY := s.currY,
               currX := x, currY := y,
               drawing_ := true }
  | MouseEvt.up =>
      { s with snapshots :=
                 objSetStr s.snapshots ("stroke" ++ toString s.strokeNum)
                   (toDataURL s.canvasContent),
               drawing_ := false }
  | MouseEvt.out => { s with drawing_ := false }
  | MouseEvt.move x y =>
      if s.drawing_ then
        { s with prevX := s.currX, prevY := s.currY,
                 currX := x, currY := y,
                 canvasContent := s.canvasContent ++ [(s.currX, s.currY, x, y)] }
      else s

end MultiDraw

namespace Chat

/-- One chat message tuple `('message', datetime, userid)` as stored in
`info.yours.messages` / `info.others.messages` (chat controller): index 0
is the text, index 1 the unix-time value, index 2 the sender id. -/
structure ChatMsg where
  text : String
  time : Nat
  sender : Nat
deriving DecidableEq, Repr

/-- The JS values met by the loop guards of `bubble`: numbers and
`undefined` (the value of `to_sort.length`, since `to_sort` is a plain
object with no `length` property). -/
inductive JVal where
  | undef
  | num (n : Int)
deriving DecidableEq, Repr

/-- JS `<` on these values: a relational comparison with `undefined`
evaluates to `false` (NaN comparison). -/
def jlt : JVal → JVal → Bool
  | JVal.num a, JVal.num b => decide (a < b)
  | _, _ => false

/-- `to_add` / `to_sort`: a JS object keyed by the numeric timestamp
strings, holding `[text, senderId]` values.  Entries are kept in
ascending key order, the `for...in` enumeration order of integer-index
keys. -/
def ChatObj : Type := List (Int × (String × Nat))

/-- JS property read `o[k]` for a numeric key: `undefined` (`none`) when
the key is absent. -/
def objGetI (o : ChatObj) (k : Int) : Option (String × Nat) :=
  match o with
  | [] => none
  | (k1, v) :: rest => if k = k1 then some v else objGetI rest k

/-- JS property write `o[k] = v` for a numeric key: replaces the value if
the key exists, otherwise inserts it at its enumeration position
(ascending numeric order for integer-index keys). -/
def objSetI (o : ChatObj) (k : Int) (v : String × Nat) : ChatObj :=
  match o with
  | [] => [(k, v)]
  | (k1, v1) :: rest =>
    if k = k1 then (k, v) :: rest
    else if k < k1 then (k, v) :: (k1, v1) :: rest
    else (k1, v1) :: objSetI rest k v

/-- `to_sort.length`: the object's keys are numeric timestamp strings,
so there is no `length` property and the read yields `undefined`. -/
def objLength (_o : ChatObj) : JVal := JVal.undef

/-- JS string conversion of a `[text, senderId]` array value
(`Array.prototype.toString`, joining with a comma), used by the abstract
relational comparison `to_sort[y] > to_sort[y+1]`. -/
def jsArrStr (v : String × Nat) : String := v.1 ++ "," ++ toString v.2

/-- JS `>` on two property reads: `false` when either is `undefined`,
otherwise the string comparison of the two array values. -/
def jsGTval (a b : Option (String × Nat)) : Bool :=
  match a, b with
  | some x, some y => decide (jsArrStr y < jsArrStr x)
  | _, _ => false

/-- The inner loop `for (y=0; y<length; y--) { if (to_sort[y] >
to_sort[y+1]) { flag = true; swap } }` of `bubble` (chat controller,
lines 164-172).  Returns the object, the flag, and the number of
iterations of the loop body actually executed; `fuel` bounds the
recursion (the guard is in fact false at once, see
`bubbleInner_no_iterations`). -/
def bubbleInner (fuel : Nat) (y : Int) (o : ChatObj) (flag : Bool) : ChatObj × Bool × Nat :=
  match fuel with
  | 0 => (o, flag, 0)
  | Nat.succ f =>
    if jlt (JVal.num y) (objLength o) then
      if jsGTval (objGetI o y) (objGetI o (y + 1)) then
        match objGetI o y, objGetI o (y + 1) with
        | some a, some b =>
          let r := bubbleInner f (y - 1) (objSetI (objSetI o y b) (y + 1) a) true
          (r.1, r.2.1, r.2.2 + 1)
        | _, _ =>
          let r := bubbleInner f (y - 1) o flag
          (r.1, r.2.1, r.2.2 + 1)
      else
        let r := bubbleInner f (y - 1) o flag
        (r.1, r.2.1, r.2.2 + 1)
    else (o, flag, 0)

/-- The outer loop `for (x=0; x<length; x++) { flag = false; <inner>;
if (flag == false) break; }` of `bubble` (lines 161-177).  Returns the
object and the total number of inner-loop iterations executed. -/
def bubbleOuter (fuel : Nat) (x : Int) (o : ChatObj) : ChatObj × Nat :=
  match fuel with
  | 0 => (o, 0)
  | Nat.succ f =>
    if jlt (JVal.num x) (objLength o) then
      let r := bubbleInner (Nat.succ f) 0 o false
      if r.2.1 = false then (r.1, r.2.2)
      else
        let r2 := bubbleOuter f (x + 1) r.1
        (r2.1, r.2.2 + r2.2)
    else (o, 0)

/-- `bubble(to_sort)` (lines 150-189): the two loops above followed by
the reversal `for (message in to_sort) sorted.splice(0, 0,
to_sort[message])`, which inserts each value at position 0 and therefore
returns the values in reverse enumeration order. -/
def bubble (o : ChatObj) : List (String × Nat) :=
  (List.map Prod.snd (bubbleOuter (List.length o + 1) 0 o).1).reverse

/-- The merge step of `message_order` (lines 118-134): writes each of
this user's messages, then each of the other user's messages, into the
object `to_add` under the key `messages[messge][1]` (the unix-time
value) with value `[messages[messge][0], messages[messge][2]]`. -/
def buildToAdd (yours others : List ChatMsg) : ChatObj :=
  List.foldl (fun o m => objSetI o (Int.ofNat m.time) (m.text, m.sender)) []
    (yours ++ others)

/-- The value the rendering sees for timestamp `t`: the last write among
the enumerated messages whose unix-time key equals `t` (writes happen in
enumeration order, this user's collection first). -/
def lastWrite (ms : List ChatMsg) (t : Int) : Option (String × Nat) :=
  match ms with
  | [] => none
  | m :: rest =>
    match lastWrite rest t with
    | some v => some v
    | none => if Int.ofNat m.time = t then some (m.text, m.sender) else none

/-- A rendered message node in `messages_container`: a clone of
`your_message` (id `your_message_<idx>`, when `yours` is true) or of
`other_message` (id `other_message_<idx>`), holding the message text. -/
structure MsgNode where
  yours : Bool
  idx : Nat
  text : String
deriving DecidableEq, Repr

/-- The page state of the chat controller: the two user ids, the two
message collections, the rendered-node counters `your_ind` / `other_ind`
and the message nodes currently in `messages_container`. -/
structure ChatState where
  yoursId : Nat
  othersId : Nat
  yoursMessages : List ChatMsg
  othersMessages : List ChatMsg
  your_ind : Nat
  other_ind : Nat
  dom : List MsgNode
deriving DecidableEq, Repr

/-- `document.getElementById("<side>_message_" + z).remove()`: removes
the first node with that id in document order. -/
def eraseNode (d : List MsgNode) (yours : Bool) (z : Nat) : List MsgNode :=
  List.eraseP (fun nd => nd.yours == yours && nd.idx == z) d

/-- The removal loop `for (let z = a; ...; z++) { ...remove(); }` run for
`n` iterations starting at `z = a` (in the source `a = 1` and `n` is the
stored counter). -/
def removeFrom (d : List MsgNode) (yours : Bool) (a : Nat) : Nat → List MsgNode
  | 0 => d
  | Nat.succ n => removeFrom (eraseNode d yours a) yours (a + 1) n

/-- `display_messages(message_list)` (lines 191-229): clones one node per
entry — on this user's side when `message_list[mess][1]` equals
`info.yours.id_`, otherwise on the other side — numbering each side
consecutively from the current counters, and appends the clones to
`messages_container`.  Returns the appended nodes and the two final
counters. -/
def dispFold (yoursId : Nat) : Nat → Nat → List (String × Nat) → List MsgNode × Nat × Nat
  | yi, oi, [] => ([], yi, oi)
  | yi, oi, (t, sender) :: rest =>
    if sender = yoursId then
      let r := dispFold yoursId (yi + 1) oi rest
      (MsgNode.mk true (yi + 1) t :: r.1, r.2)
    else
      let r := dispFold yoursId yi (oi + 1) rest
      (MsgNode.mk false (oi + 1) t :: r.1, r.2)

/-- `message_order()` (lines 103-148): removes the previously rendered
message nodes and resets both counters, rebuilds `to_add` from the two
collections, sorts it with `bubble`, collects `message_order_list` (the
array values in index order) and renders it with `display_messages`. -/
def message_order (s : ChatState) : ChatState :=
  let d1 := removeFrom s.dom true 1 s.your_ind
  let d2 := removeFrom d1 false 1 s.other_ind
  let lst := bubble (buildToAdd s.yoursMessages s.othersMessages)
  let r := dispFold s.yoursId 0 0 lst
  { s with dom := d2 ++ r.1, your_ind := r.2.1, other_ind := r.2.2 }

end Chat

namespace Home

/-- One leaderboard table row as built by the handler: the rank cell
(`"#" + x`), the username cell and the points cell. -/
structure LRow where
  rank : Nat
  username : String
  pts : Nat
deriving DecidableEq, Repr

/-- The row-building loop of the `leaderboard` handler (home.js lines
27-61): for each leader tuple, increments `x` and appends a new row
`(#x, username, totalPoints)` to the `leaderboard` table with
`insertRow`.  The table is never cleared. -/
def lbLoop (table : List LRow) (x : Nat) : List (String × Nat) → List LRow
  | [] => table
  | (u, p) :: rest => lbLoop (table ++ [LRow.mk (x + 1) u p]) (x + 1) rest

/-- The `leaderboard` socket handler: runs the row-building loop over
`data['leaders']` starting from `x = 0` on the table as it currently
stands. -/
def leaderboard_handler (table : List LRow) (leaders : List (String × Nat)) : List LRow :=
  lbLoop table 0 leaders

end Home

namespace Dictionary

/-- One dictionary search result (`entries[entry]`): the primary reading,
the list of other readings and the list of meanings rendered into the
cloned `search_result_` box. -/
structure DictEntry where
  primaryReading : String
  readings : List String
  meanings : List String
deriving DecidableEq, Repr

/-- The dictionary page state: the `current_index` counter and the
`search_result_<idx>` boxes currently under `search_results`, each with
its rendered entry. -/
structure DictState where
  current_index : Nat
  region : List (Nat × DictEntry)
deriving DecidableEq, Repr

/-- `document.getElementById("search_result_" + z).remove()`: removes the
first box with that index. -/
def eraseBox (d : List (Nat × DictEntry)) (z : Nat) : List (Nat × DictEntry) :=
  List.eraseP (fun b => b.1 == z) d

/-- The deletion loop `for (let z = 1; z <= current_index; z++)` of the
`dictionary_results` handler, run for `n` iterations starting at
`z = a`. -/
def removeBoxes (d : List (Nat × DictEntry)) (a : Nat) : Nat → List (Nat × DictEntry)
  | 0 => d
  | Nat.succ n => removeBoxes (eraseBox d a) (a + 1) n

/-- The rebuild loop of `dictionary_results` (dictionary.js lines 36-85):
for each entry, increments `x`, clones the hidden `search_result_` box as
`search_result_<x>` filled from the entry, appends it, and records
`current_index = x`.  Returns the region and the final counter. -/
def dictLoop (region : List (Nat × DictEntry)) (x : Nat) :
    List DictEntry → List (Nat × DictEntry) × Nat
  | [] => (region, x)
  | e :: rest => dictLoop (region ++ [(x + 1, e)]) (x + 1) rest

/-- The `dictionary_results` socket handler (lines 14-87): deletes the
previous `search_result_1 .. search_result_current_index` boxes, resets
`current_index` to 0, then rebuilds one box per result entry. -/
def dictionary_results (s : DictState) (entries : List DictEntry) : DictState :=
  let cleared := removeBoxes s.region 1 s.current_index
  let r := dictLoop cleared 0 entries
  { current_index := r.2, region := r.1 }

end Dictionary

namespace Profile

/-- One rendered user-search result in `request_results_list`: the clone
id index (`request_result_<idx>`), the shown username and the
`final_req_<UserID>` id of its button. -/
structure UserRow where
  idx : Nat
  username : String
  userId : Nat
deriving DecidableEq, Repr

/-- The loop of the `found_users` handler (profile controller): for each
`(UserID, Username)` tuple in `data['people']`, increments `x` (started
at -1, so the first clone has index 0) and appends a clone showing the
username, with button id `final_req_<UserID>`.  Nothing is removed
first. -/
def fuLoop (region : List UserRow) (x : Nat) : List (Nat × String) → List UserRow
  | [] => region
  | (uid, uname) :: rest => fuLoop (region ++ [UserRow.mk x uname uid]) (x + 1) rest

/-- The `found_users` socket handler: appends one clone per found user to
the existing `request_results_list` region. -/
def found_users (region : List UserRow) (people : List (Nat × String)) : List UserRow :=
  fuLoop region 0 people

end Profile

namespace Matching

/-- A deck entry `(character/sound, sound)` of the matching game: two
entries pair up exactly when their second components (the sound) are
equal. -/
abbrev Card := String × String

/-- Card comparisons (`indexOf` on `characters` / `not_allowed`) test
structural tuple equality; in the source this is JS reference equality,
which coincides with it because each selected entry is the very object
stored in `characters`. -/
instance : BEq Card := instBEqOfDecidableEq

instance : LawfulBEq Card where
  eq_of_beq h := of_decide_eq_true h
  rfl := decide_eq_true rfl

/-- The DOM state of a rendered card `card_<i>`: its CSS class and
whether its `onclick` is the selecting callback (`this_one`) or was
replaced by the empty function. -/
structure CardUI where
  className : String
  clickable : Bool
deriving DecidableEq, Repr

/-- Outbound socket messages of the matching controller. -/
inductive MMsg where
  | done_matches
  | match_connect
deriving DecidableEq, Repr

/-- The page state of `matching-2.js`: the deck (`characters`), the
score, the `selected` stack, the locked list (`not_allowed`), the
confirmed pairs (`found`), the per-card DOM state (position `i` holds
`card_<i+1>`, aligned with `characters`), the result banner and the log
of emitted messages. -/
structure MatchState where
  characters : List Card
  points : Nat
  selected : List Card
  not_allowed : List Card
  found : List Card
  cards : List CardUI
  resultText : String
  pointsText : String
  emitted : List MMsg
deriving DecidableEq, Repr

/-- `not_allowed.splice(not_allowed.indexOf(c), 1)`: removes the element
at the found index; when the element is absent `indexOf` gives -1 and
`splice(-1, 1)` removes the last element. -/
def spliceIndexOf (l : List Card) (c : Card) : List Card :=
  match List.indexOf? c l with
  | some i => List.eraseIdx l i
  | none => List.dropLast l

/-- `check()` (matching-2.js lines 118-191) in the case
`selected.length == 2`, with `a = selected[0]` and `b = selected[1]`:
on matching sounds marks both cards `disabled_correct` with an empty
`onclick`, pushes both entries onto `found` and adds 2 points; otherwise
restores both cards to selectable `match_card` and unlocks them.  Either
way `selected` is cleared; if `found` then holds all 10 cards the deck
is torn down and a new one requested. -/
def checkPair (s : MatchState) (a b : Card) : MatchState :=
  let ind1 := List.indexOf a s.characters
  let ind2 := List.indexOf b s.characters
  let s1 :=
    if a.2 = b.2 then
      { s with resultText := "Correct!",
               found := s.found ++ [a, b],
               cards := List.set (List.set s.cards ind1 (CardUI.mk "disabled_correct" false))
                          ind2 (CardUI.mk "disabled_correct" false),
               points := s.points + 2,
               pointsText := "Points: " ++ toString (s.points + 2) }
    else
      { s with resultText := "Incorrect!",
               cards := List.set (List.set s.cards ind1 (CardUI.mk "match_card" true))
                          ind2 (CardUI.mk "match_card" true),
               not_allowed := spliceIndexOf (spliceIndexOf s.not_allowed a) b }
  let s2 := { s1 with selected := [] }
  if List.length s2.found = 10 then
    { s2 with characters := [], found := [], not_allowed := [],
              emitted := s2.emitted ++ [MMsg.done_matches, MMsg.match_connect],
              cards := [] }
  else s2

/-- `check()` (lines 118-191): acts only when exactly two cards are
selected, comparing `selected[0][1]` with `selected[1][1]`. -/
def check (s : MatchState) : MatchState :=
  match s.selected with
  | [a, b] => checkPair s a b
  | _ => s

/-- `this_one(_id)` (lines 89-116) for a click on `card_<index>`: if the
card's entry is not locked, selects it, shows it as `disabled_selected`,
locks it and runs `check()`.  Clicks on indices outside the rendered deck
do not occur (ids come from the rendered cards). -/
def this_one (s : MatchState) (index : Nat) : MatchState :=
  match s.characters[index - 1]? with
  | none => s
  | some c =>
    if c ∈ s.not_allowed then s
    else
      check { s with selected := s.selected ++ [c],
                     cards := List.set s.cards (index - 1)
                       (CardUI.mk "disabled_selected"
                         (match s.cards[index - 1]? with
                          | some ui => ui.clickable
                          | none => true)),
                     not_allowed := s.not_allowed ++ [c] }

end Matching

namespace MultiDraw

/-- The two events whose interleavings the anti-peeking rule quantifies
over: arrival of the peer image (`recv_img`) and the local submit action
(`save`). -/
inductive C1Event where
  | recvImg (image : String)
  | saveEv
deriving DecidableEq, Repr

/-- One step of the peer-image / local-submit interleaving. -/
def c1step (s : MDState) : C1Event → MDState
  | C1Event.recvImg im => recv_img s im
  | C1Event.saveEv => save s

/-- Runs a whole interleaving of peer-image and local-submit events. -/
def c1run (s : MDState) (evs : List C1Event) : MDState :=
  List.foldl c1step s evs

/-- Runs a list of canvas mouse events through `findcoords`. -/
def runMouse (s : MDState) (evs : List MouseEvt) : MDState :=
  List.foldl findcoords s evs

/-- The event list of one completed pointer-down → pointer-up stroke:
a mouse-down at `p`, any number of mouse-moves, and a mouse-up. -/
def strokeEvents (p : Int × Int) (moves : List (Int × Int)) : List MouseEvt :=
  MouseEvt.down p.1 p.2 :: (List.map (fun q => MouseEvt.move q.1 q.2) moves ++ [MouseEvt.up])

/-- The key list of the decoded `image_data` payload of an
`image_submit` message (empty for other messages). -/
def imageKeys : Msg → List String
  | Msg.image_submit _ d _ _ => List.map Prod.fst d
  | _ => []

/-- A concrete three-stroke collaborative session: the peer joins (so
`waiting` becomes false), the local user draws three one-click strokes
and submits. -/
def c3state : MDState :=
  save (runMouse (other_connection initMD "peer" 5)
    [MouseEvt.down 1 1, MouseEvt.up, MouseEvt.down 2 2, MouseEvt.up,
     MouseEvt.down 3 3, MouseEvt.up])

end MultiDraw

namespace MultiDraw

/-- C8: on an inbound `recv_challenge` message both canvases are cleared,
both status records' submitted/result/ready fields are reset to false,
the drawing controls are restored, the new challenge payload
(kana, sound, sound_num) is recorded, and the participant identities and
accumulated points of both status records are left unchanged. -/
theorem C8_recv_challenge_resets_and_preserves (s : MDState) (k snd : String) (n : Nat) :
    (recv_challenge s k snd n).snapshots = [] ∧
    (recv_challenge s k snd n).strokeNum = 0 ∧
    (recv_challenge s k snd n).canvasContent = [] ∧
    (recv_challenge s k snd n).drawingCanvasBg = "white" ∧
    (recv_challenge s k snd n).otherCanvasBg = "white" ∧
    (recv_challenge s k snd n).otherCanvasImg = none ∧
    (recv_challenge s k snd n).yourself.submitted = false ∧
    (recv_challenge s k snd n).yourself.result = false ∧
    (recv_challenge s k snd n).yourself.ready = false ∧
    (recv_challenge s k snd n).other_user.submitted = false ∧
    (recv_challenge s k snd n).other_user.result = false ∧
    (recv_challenge s k snd n).other_user.ready = false ∧
    (recv_challenge s k snd n).clrDisplay = "inline" ∧
    (recv_challenge s k snd n).submitDisplay = "inline" ∧
    (recv_challenge s k snd n).readyDisplay = "none" ∧
    (recv_challenge s k snd n).readyMsgDisplay = "none" ∧
    (recv_challenge s k snd n).kana = k ∧
    (recv_challenge s k snd n).sound = snd ∧
    (recv_challenge s k snd n).sound_num = n ∧
    (recv_challenge s k snd n).yourself.user_id = s.yourself.user_id ∧
    (recv_challenge s k snd n).yourself.points = s.yourself.points ∧
    (recv_challenge s k snd n).other_user.user_id = s.other_user.user_id ∧
    (recv_challenge s k snd n).other_user.points = s.other_user.points := by
  simp [recv_challenge, clear_other, erase]

/-- C9: a `save()` attempted while still waiting for the peer emits no
message, leaves the submitted flag false, hides no controls, and clears
the stroke snapshot set, the stroke counter and the canvas. -/
theorem C9_save_while_waiting_clears_only (s : MDState)
    (hw : s.waiting = true) (hsub : s.yourself.submitted = false) :
    (save s).emitted = s.emitted ∧
    (save s).yourself.submitted = false ∧
    (save s).clrDisplay = s.clrDisplay ∧
    (save s).submitDisplay = s.submitDisplay ∧
    (save s).otherCanvasDisplay = s.otherCanvasDisplay ∧
    (save s).snapshots = [] ∧
    (save s).strokeNum = 0 ∧
    (save s).canvasContent = [] := by
  simp [save, hw, erase, hsub]

/-- Closed witness for C9 at the initial page state. -/
theorem C9_witness :
    initMD.waiting = true ∧ initMD.yourself.submitted = false ∧
    ((save initMD).emitted = initMD.emitted ∧
     (save initMD).yourself.submitted = false ∧
     (save initMD).clrDisplay = initMD.clrDisplay ∧
     (save initMD).submitDisplay = initMD.submitDisplay ∧
     (save initMD).otherCanvasDisplay = initMD.otherCanvasDisplay ∧
     (save initMD).snapshots = [] ∧
     (save initMD).strokeNum = 0 ∧
     (save initMD).canvasContent = []) :=
  ⟨rfl, rfl, C9_save_while_waiting_clears_only initMD rfl rfl⟩

/-- C2: `colour_results` is the identity unless both submitted flags are
true, and when both are true it reveals the ready control and sets each
participant's canvas background to the correct colour exactly when that
participant's own result is true, and to the incorrect colour
otherwise. -/
theorem C2_colour_results_gated_and_correct :
    (∀ s : MDState, ¬(s.yourself.submitted = true ∧ s.other_user.submitted = true) →
      colour_results s = s) ∧
    (∀ s : MDState, s.yourself.submitted = true → s.other_user.submitted = true →
      (colour_results s).readyDisplay = "block" ∧
      (colour_results s).drawingCanvasBg =
        (if s.yourself.result = true then "#67e088" else "red") ∧
      (colour_results s).otherCanvasBg =
        (if s.other_user.result = true then "#67e088" else "red")) := by
  constructor
  · intro s h
    have hb : s.yourself.submitted = false ∨ s.other_user.submitted = false := by
      rcases Bool.eq_false_or_eq_true s.yourself.submitted with h1 | h1
      · rcases Bool.eq_false_or_eq_true s.other_user.submitted with h2 | h2
        · exact absurd ⟨h1, h2⟩ h
        · exact Or.inr h2
      · exact Or.inl h1
    rcases hb with h1 | h1 <;> simp [colour_results, h1]
  · intro s h1 h2
    rcases Bool.eq_false_or_eq_true s.yourself.result with hr | hr <;>
      rcases Bool.eq_false_or_eq_true s.other_user.result with ho | ho <;>
      simp [colour_results, h1, h2, hr, ho]

/-- Closed witness for C2: one state where only one flag is set (the
colouring step does nothing) and one where both are set (the backgrounds
match each participant's own result). -/
theorem C2_witness :
    (colour_results (recv_img initMD "peer") = recv_img initMD "peer") ∧
    ((colour_results (recv_img (save (other_connection initMD "peer" 5)) "img")).readyDisplay
        = "block") := by
  constructor
  · exact (C2_colour_results_gated_and_correct.1 (recv_img initMD "peer")) (by decide)
  · exact ((C2_colour_results_gated_and_correct.2
      (recv_img (save (other_connection initMD "peer" 5)) "img")) (by decide) (by decide)).1

end MultiDraw

namespace MultiDraw

/-- C1: for every interleaving of the inbound peer-image event and the
local submit action, the peer canvas is never visible before the local
participant has submitted: a peer image arriving while the local
submitted flag is false leaves the peer canvas hidden at receipt time,
only the local submit step can turn the canvas visible, and along any
interleaving a visible peer canvas implies the local submitted flag. -/
theorem C1_peer_canvas_never_visible_before_submit :
    (∀ (s : MDState) (im : String), s.yourself.submitted = false →
      (recv_img s im).otherCanvasDisplay = "none") ∧
    (∀ (s : MDState) (e : C1Event), s.otherCanvasDisplay ≠ "inline" →
      (c1step s e).otherCanvasDisplay = "inline" → e = C1Event.saveEv) ∧
    (∀ (s : MDState) (evs : List C1Event),
      (s.otherCanvasDisplay = "inline" → s.yourself.submitted = true) →
      (c1run s evs).otherCanvasDisplay = "inline" →
      (c1run s evs).yourself.submitted = true) := by
  refine ⟨?_, ?_, ?_⟩
  · intro s im h
    simp [recv_img, h]
  · intro s e hne hvis
    cases e with
    | recvImg im =>
      exfalso
      by_cases h : s.yourself.submitted = false
      · simp [c1step, recv_img, h] at hvis
      · simp [c1step, recv_img, h] at hvis
        exact hne hvis
    | saveEv => rfl
  · intro s evs
    induction evs generalizing s with
    | nil => intro hinv hv; exact hinv hv
    | cons e rest ih =>
      intro hinv
      have hstep : (c1step s e).otherCanvasDisplay = "inline" →
          (c1step s e).yourself.submitted = true := by
        cases e with
        | recvImg im =>
          intro hv
          by_cases h : s.yourself.submitted = false
          · simp [c1step, recv_img, h] at hv
          · simp [c1step, recv_img, h] at hv ⊢
        | saveEv =>
          intro hv
          by_cases hw : s.waiting = false
          · simp [c1step, save, hw]
          · simp [c1step, save, hw, erase] at hv ⊢
            exact hinv hv
      exact ih (c1step s e) hstep

/-- Closed witness for C1: a peer image at the initial (unsubmitted)
state is hidden; from the joined state the step that turns the canvas
visible is the save event; and after the trace peer-image-then-save the
visible canvas comes with a set submitted flag. -/
theorem C1_witness :
    (recv_img initMD "peer").otherCanvasDisplay = "none" ∧
    C1Event.saveEv = C1Event.saveEv ∧
    (c1run (other_connection initMD "u" 5)
      [C1Event.recvImg "peer", C1Event.saveEv]).yourself.submitted = true := by
  refine ⟨C1_peer_canvas_never_visible_before_submit.1 initMD "peer" rfl, ?_, ?_⟩
  · exact C1_peer_canvas_never_visible_before_submit.2.1
      (other_connection initMD "u" 5) C1Event.saveEv (by decide) (by decide)
  · exact C1_peer_canvas_never_visible_before_submit.2.2
      (other_connection initMD "u" 5) [C1Event.recvImg "peer", C1Event.saveEv]
      (by decide) (by decide)

end MultiDraw

namespace MultiDraw

theorem findcoords_frame (s : MDState) (e : MouseEvt) :
    (findcoords s e).waiting = s.waiting ∧
    (findcoords s e).room = s.room ∧
    (findcoords s e).own_id = s.own_id ∧
    (findcoords s e).sound_num = s.sound_num ∧
    (findcoords s e).emitted = s.emitted := by
  cases e with
  | down x y => simp [findcoords]
  | up => simp [findcoords]
  | out => simp [findcoords]
  | move x y => by_cases h : s.drawing_ <;> simp [findcoords, h]

theorem runMouse_frame (s : MDState) (evs : List MouseEvt) :
    (runMouse s evs).waiting = s.waiting ∧
    (runMouse s evs).room = s.room ∧
    (runMouse s evs).own_id = s.own_id ∧
    (runMouse s evs).sound_num = s.sound_num ∧
    (runMouse s evs).emitted = s.emitted := by
  induction evs generalizing s with
  | nil => exact ⟨rfl, rfl, rfl, rfl, rfl⟩
  | cons e rest ih =>
    have h1 := findcoords_frame s e
    have h2 := ih (findcoords s e)
    simp only [runMouse, List.foldl_cons] at h2 ⊢
    exact ⟨h2.1.trans h1.1, h2.2.1.trans h1.2.1, h2.2.2.1.trans h1.2.2.1,
      h2.2.2.2.1.trans h1.2.2.2.1, h2.2.2.2.2.trans h1.2.2.2.2⟩

theorem runMouse_append (s : MDState) (a b : List MouseEvt) :
    runMouse s (a ++ b) = runMouse (runMouse s a) b := by
  simp [runMouse, List.foldl_append]

theorem runMouse_moves_keep (s : MDState) (moves : List (Int × Int)) :
    (runMouse s (List.map (fun q => MouseEvt.move q.1 q.2) moves)).snapshots = s.snapshots ∧
    (runMouse s (List.map (fun q => MouseEvt.move q.1 q.2) moves)).strokeNum = s.strokeNum := by
  induction moves generalizing s with
  | nil => exact ⟨rfl, rfl⟩
  | cons q rest ih =>
    have hk : (findcoords s (MouseEvt.move q.1 q.2)).snapshots = s.snapshots ∧
        (findcoords s (MouseEvt.move q.1 q.2)).strokeNum = s.strokeNum := by
      by_cases h : s.drawing_ <;> simp [findcoords, h]
    have h2 := ih (findcoords s (MouseEvt.move q.1 q.2))
    simp only [List.map_cons, runMouse, List.foldl_cons] at h2 ⊢
    exact ⟨h2.1.trans hk.1, h2.2.trans hk.2⟩

theorem findcoords_up_snapshots (t : MDState) :
    (findcoords t MouseEvt.up).snapshots =
      objSetStr t.snapshots ("stroke" ++ toString t.strokeNum) (toDataURL t.canvasContent) := rfl

theorem findcoords_up_strokeNum (t : MDState) :
    (findcoords t MouseEvt.up).strokeNum = t.strokeNum := rfl

theorem runMouse_stroke (s : MDState) (p : Int × Int) (moves : List (Int × Int)) :
    (∃ v, (runMouse s (strokeEvents p moves)).snapshots =
        objSetStr s.snapshots ("stroke" ++ toString (s.strokeNum + 1)) v) ∧
    (runMouse s (strokeEvents p moves)).strokeNum = s.strokeNum + 1 := by
  have hsplit : strokeEvents p moves =
      [MouseEvt.down p.1 p.2] ++
        (List.map (fun q => MouseEvt.move q.1 q.2) moves ++ [MouseEvt.up]) := by
    simp [strokeEvents]
  rw [hsplit, runMouse_append, runMouse_append]
  have hd1 : (runMouse s [MouseEvt.down p.1 p.2]).snapshots = s.snapshots := by
    simp [runMouse, findcoords]
  have hd2 : (runMouse s [MouseEvt.down p.1 p.2]).strokeNum = s.strokeNum + 1 := by
    simp [runMouse, findcoords]
  have hm1 := (runMouse_moves_keep (runMouse s [MouseEvt.down p.1 p.2]) moves).1
  have hm2 := (runMouse_moves_keep (runMouse s [MouseEvt.down p.1 p.2]) moves).2
  have hfin : ∀ u : MDState, runMouse u [MouseEvt.up] = findcoords u MouseEvt.up := by
    intro u; simp [runMouse]
  constructor
  · refine ⟨toDataURL (runMouse (runMouse s [MouseEvt.down p.1 p.2])
      (List.map (fun q => MouseEvt.move q.1 q.2) moves)).canvasContent, ?_⟩
    rw [hfin, findcoords_up_snapshots, hm1, hd1, hm2, hd2]
  · rw [hfin, findcoords_up_strokeNum, hm2, hd2]

theorem objSetStr_fresh (o : List (String × String)) (k v : String)
    (h : ¬ k ∈ List.map Prod.fst o) :
    objSetStr o k v = o ++ [(k, v)] := by
  induction o with
  | nil => rfl
  | cons e rest ih =>
    simp only [List.map_cons, List.mem_cons] at h
    push_neg at h
    simp only [objSetStr]
    rw [if_neg h.1]
    simp [ih h.2]

/-- C3 (amended): submitting a collaborative drawing after exactly three
completed pointer-down → pointer-up strokes emits an `image_submit`
message whose decoded `image_data` payload contains exactly 3 entries,
keyed `stroke1`, `stroke2`, `stroke3` (lower-case, as written by
`findcoords` in `multi_draw.js`, unlike the solo controller's
`Stroke<n>` keys). -/
theorem C3_three_stroke_submit_keys (s : MDState) (p1 p2 p3 : Int × Int)
    (m1 m2 m3 : List (Int × Int)) (t : MDState)
    (ht : t = runMouse s (strokeEvents p1 m1 ++ (strokeEvents p2 m2 ++ strokeEvents p3 m3)))
    (h0 : s.snapshots = []) (h1 : s.strokeNum = 0) (h2 : s.waiting = false) :
    (save t).emitted = s.emitted ++ [Msg.image_submit s.own_id t.snapshots s.room s.sound_num] ∧
    List.map Prod.fst t.snapshots = ["stroke1", "stroke2", "stroke3"] ∧
    List.length t.snapshots = 3 := by
  subst ht
  rw [runMouse_append, runMouse_append]
  have st1 := runMouse_stroke s p1 m1
  obtain ⟨⟨v1, hv1⟩, hn1⟩ := st1
  have st2 := runMouse_stroke (runMouse s (strokeEvents p1 m1)) p2 m2
  obtain ⟨⟨v2, hv2⟩, hn2⟩ := st2
  have st3 := runMouse_stroke
    (runMouse (runMouse s (strokeEvents p1 m1)) (strokeEvents p2 m2)) p3 m3
  obtain ⟨⟨v3, hv3⟩, hn3⟩ := st3
  rw [h0, h1] at hv1
  rw [hv1, hn1, h1] at hv2
  rw [hv2, hn2, hn1, h1] at hv3
  have key1 : ("stroke" ++ toString (0 + 1) : String) = "stroke1" := by rfl
  have key2 : ("stroke" ++ toString (0 + 1 + 1) : String) = "stroke2" := by rfl
  have key3 : ("stroke" ++ toString (0 + 1 + 1 + 1) : String) = "stroke3" := by rfl
  rw [key1] at hv1 hv2 hv3
  rw [key2] at hv2 hv3
  rw [key3] at hv3
  have hset1 : objSetStr [] "stroke1" v1 = [("stroke1", v1)] := rfl
  rw [hset1] at hv2 hv3
  have hset2 : objSetStr [("stroke1", v1)] "stroke2" v2 = [("stroke1", v1), ("stroke2", v2)] := by
    rw [objSetStr_fresh _ _ _ (by simp)]; rfl
  rw [hset2] at hv3
  have hset3 : objSetStr [("stroke1", v1), ("stroke2", v2)] "stroke3" v3 =
      [("stroke1", v1), ("stroke2", v2), ("stroke3", v3)] := by
    rw [objSetStr_fresh _ _ _ (by simp)]; rfl
  rw [hset3] at hv3
  set t := runMouse (runMouse (runMouse s (strokeEvents p1 m1)) (strokeEvents p2 m2))
    (strokeEvents p3 m3) with hteq
  have hframe : t.waiting = s.waiting ∧ t.room = s.room ∧ t.own_id = s.own_id ∧
      t.sound_num = s.sound_num ∧ t.emitted = s.emitted := by
    rw [hteq, ← runMouse_append, ← runMouse_append]
    exact ⟨(runMouse_frame s _).1, (runMouse_frame s _).2.1, (runMouse_frame s _).2.2.1,
      (runMouse_frame s _).2.2.2.1, (runMouse_frame s _).2.2.2.2⟩
  refine ⟨?_, ?_, ?_⟩
  · have hw : t.waiting = false := hframe.1.trans h2
    have hsave : (save t).emitted =
        t.emitted ++ [Msg.image_submit t.own_id t.snapshots t.room t.sound_num] := by
      simp [save, hw]
    rw [hsave, hframe.2.2.2.2, hframe.2.2.1, hframe.2.1, hframe.2.2.2.1]
  · rw [hv3]; rfl
  · rw [hv3]; rfl

/-- Counterexample for C3 as frozen: in a concrete three-stroke session
the emitted payload's keys are `stroke1..stroke3`, not
`Stroke1..Stroke3`. -/
theorem C3_counterexample_key_case :
    List.map imageKeys c3state.emitted = [["stroke1", "stroke2", "stroke3"]] ∧
    List.map imageKeys c3state.emitted ≠ [["Stroke1", "Stroke2", "Stroke3"]] := by
  decide

/-- Closed witness for the amended C3 at a concrete three-stroke run. -/
theorem C3_witness :
    (save (runMouse (other_connection initMD "peer" 5)
        (strokeEvents (1, 1) [] ++ (strokeEvents (2, 2) [] ++ strokeEvents (3, 3) [])))).emitted =
      (other_connection initMD "peer" 5).emitted ++
        [Msg.image_submit (other_connection initMD "peer" 5).own_id
          (runMouse (other_connection initMD "peer" 5)
            (strokeEvents (1, 1) [] ++ (strokeEvents (2, 2) [] ++ strokeEvents (3, 3) []))).snapshots
          (other_connection initMD "peer" 5).room
          (other_connection initMD "peer" 5).sound_num] ∧
    List.map Prod.fst (runMouse (other_connection initMD "peer" 5)
        (strokeEvents (1, 1) [] ++ (strokeEvents (2, 2) [] ++ strokeEvents (3, 3) []))).snapshots =
      ["stroke1", "stroke2", "stroke3"] ∧
    List.length (runMouse (other_connection initMD "peer" 5)
        (strokeEvents (1, 1) [] ++ (strokeEvents (2, 2) [] ++ strokeEvents (3, 3) []))).snapshots =
      3 :=
  C3_three_stroke_submit_keys (other_connection initMD "peer" 5) (1, 1) (2, 2) (3, 3) [] [] []
    _ rfl rfl rfl rfl

end MultiDraw

namespace Chat

theorem bubbleInner_no_iterations (fuel : Nat) (y : Int) (o : ChatObj) (flag : Bool) :
    bubbleInner fuel y o flag = (o, flag, 0) := by
  cases fuel with
  | zero => rfl
  | succ f => rfl

theorem bubbleOuter_no_iterations (fuel : Nat) (x : Int) (o : ChatObj) :
    bubbleOuter fuel x o = (o, 0) := by
  cases fuel with
  | zero => rfl
  | succ f => rfl

theorem bubble_eq_reverse_values (o : ChatObj) :
    bubble o = (List.map Prod.snd o).reverse := by
  unfold bubble
  rw [bubbleOuter_no_iterations]

/-- C4 (amended): the loops of `bubble` never execute at all — `to_sort`
is a plain object, its `length` property is `undefined`, and the JS
comparisons `x < undefined` / `y < undefined` guarding both loops are
false — so for every input and any loop fuel the routine terminates at
once, performs zero inner-loop iterations (in particular zero
comparisons and zero swaps), and merely returns the stored values in
reverse key-enumeration order: the routine itself sorts nothing. -/
theorem C4_bubble_loops_never_execute (fuel : Nat) (x y : Int) (o : ChatObj) (flag : Bool) :
    bubbleInner fuel y o flag = (o, flag, 0) ∧
    bubbleOuter fuel x o = (o, 0) ∧
    bubble o = (List.map Prod.snd o).reverse := by
  exact ⟨bubbleInner_no_iterations fuel y o flag, bubbleOuter_no_iterations fuel x o,
    bubble_eq_reverse_values o⟩

/-- Counterexample for C4 as frozen: on a concrete non-empty message
object the inner loop of `bubble` executes zero iterations (its index is
never even decremented once) and the routine terminates, returning the
values in reverse enumeration order. -/
theorem C4_counterexample_no_inner_iterations :
    (bubbleInner 1000 0 [((3 : Int), ("hello", 1)), (5, ("there", 2))] false).2.2 = 0 ∧
    (bubbleOuter 1000 0 [((3 : Int), ("hello", 1)), (5, ("there", 2))]).2 = 0 ∧
    bubble [((3 : Int), ("hello", 1)), (5, ("there", 2))] = [("there", 2), ("hello", 1)] := by
  decide

theorem objGetI_objSetI (o : ChatObj) (k k2 : Int) (v : String × Nat) :
    objGetI (objSetI o k v) k2 = if k2 = k then some v else objGetI o k2 := by
  induction o with
  | nil =>
    by_cases h : k2 = k <;> simp [objSetI, objGetI, h]
  | cons e rest ih =>
    obtain ⟨k1, v1⟩ := e
    by_cases h1 : k = k1
    · subst h1
      by_cases h2 : k2 = k <;> simp [objSetI, objGetI, h2]
    · by_cases h3 : k < k1
      · by_cases h2 : k2 = k
        · subst h2
          simp [objSetI, objGetI, h1, h3]
        · simp [objSetI, objGetI, h1, h3, h2]
      · by_cases h2 : k2 = k1
        · subst h2
          have hne : ¬ k2 = k := fun hh => h1 hh.symm
          simp [objSetI, objGetI, h1, h3, hne, ih]
        · simp [objSetI, objGetI, h1, h3, h2, ih]

theorem objGetI_foldl_writes (ms : List ChatMsg) (o : ChatObj) (t : Int) :
    objGetI (List.foldl (fun acc m => objSetI acc (Int.ofNat m.time) (m.text, m.sender)) o ms) t =
      (match lastWrite ms t with
       | some v => some v
       | none => objGetI o t) := by
  induction ms generalizing o with
  | nil => rfl
  | cons m rest ih =>
    simp only [List.foldl_cons, lastWrite]
    rw [ih]
    cases hlw : lastWrite rest t with
    | some v => rfl
    | none =>
      simp only
      rw [objGetI_objSetI]
      by_cases h : t = Int.ofNat m.time
      · simp [h]
      · have h2 : ¬ Int.ofNat m.time = t := fun hh => h hh.symm
        rw [if_neg h, if_neg h2]

theorem mem_keys_objSetI (o : ChatObj) (k k2 : Int) (v : String × Nat)
    (h : k2 ∈ List.map Prod.fst (objSetI o k v)) :
    k2 = k ∨ k2 ∈ List.map Prod.fst o := by
  induction o with
  | nil =>
    simp only [objSetI, List.map_cons, List.map_nil, List.mem_singleton] at h
    exact Or.inl h
  | cons e rest ih =>
    obtain ⟨k1, v1⟩ := e
    by_cases h1 : k = k1
    · subst h1
      have hset : objSetI ((k, v1) :: rest) k v = (k, v) :: rest := by simp [objSetI]
      rw [hset] at h
      simp only [List.map_cons, List.mem_cons] at h
      simp only [List.map_cons, List.mem_cons]
      tauto
    · by_cases h3 : k < k1
      · simp only [objSetI, if_neg h1, if_pos h3, List.map_cons, List.mem_cons] at h
        simp only [List.map_cons, List.mem_cons]
        tauto
      · simp only [objSetI, if_neg h1, if_neg h3, List.map_cons, List.mem_cons] at h
        simp only [List.map_cons, List.mem_cons]
        rcases h with h | h
        · exact Or.inr (Or.inl h)
        · rcases ih h with h4 | h4
          · exact Or.inl h4
          · exact Or.inr (Or.inr h4)

theorem objSetI_sorted (o : ChatObj) (k : Int) (v : String × Nat)
    (h : List.Pairwise (fun a b => a < b) (List.map Prod.fst o)) :
    List.Pairwise (fun a b => a < b) (List.map Prod.fst (objSetI o k v)) := by
  induction o with
  | nil => simp [objSetI]
  | cons e rest ih =>
    obtain ⟨k1, v1⟩ := e
    simp only [List.map_cons, List.pairwise_cons] at h
    by_cases h1 : k = k1
    · subst h1
      simpa [objSetI, List.pairwise_cons] using h
    · by_cases h3 : k < k1
      · simp only [objSetI, if_neg h1, if_pos h3, List.map_cons, List.pairwise_cons]
        refine ⟨?_, h.1, h.2⟩
        intro b hb
        simp only [List.map_cons, List.mem_cons] at hb
        rcases hb with hb | hb
        · exact hb ▸ h3
        · exact lt_trans h3 (h.1 b hb)
      · have hk1 : k1 < k := by omega
        simp only [objSetI, if_neg h1, if_neg h3, List.map_cons, List.pairwise_cons]
        refine ⟨?_, ih h.2⟩
        intro b hb
        rcases mem_keys_objSetI rest k b v (by simpa using hb) with hb2 | hb2
        · exact hb2 ▸ hk1
        · exact h.1 b hb2

theorem buildToAdd_sorted (yours others : List ChatMsg) :
    List.Pairwise (fun a b => a < b) (List.map Prod.fst (buildToAdd yours others)) := by
  unfold buildToAdd
  generalize yours ++ others = ms
  have hgen : ∀ (ms : List ChatMsg) (o : ChatObj),
      List.Pairwise (fun a b => a < b) (List.map Prod.fst o) →
      List.Pairwise (fun a b => a < b) (List.map Prod.fst
        (List.foldl (fun acc m => objSetI acc (Int.ofNat m.time) (m.text, m.sender)) o ms)) := by
    intro ms
    induction ms with
    | nil => intro o ho; exact ho
    | cons m rest ih =>
      intro o ho
      exact ih _ (objSetI_sorted o _ _ ho)
  exact hgen ms [] (by simp)

theorem objGetI_mem (o : ChatObj) (t : Int) (v : String × Nat)
    (h : objGetI o t = some v) : v ∈ List.map Prod.snd o := by
  induction o with
  | nil => simp [objGetI] at h
  | cons e rest ih =>
    obtain ⟨k1, v1⟩ := e
    by_cases h1 : t = k1
    · simp [objGetI, h1] at h
      simp [h]
    · simp [objGetI, h1] at h
      simp [ih h]

/-- C10: the merged chat view is keyed by timestamp: the object built by
`message_order` maps each timestamp to the LAST message written with that
time value (the other user's collection is enumerated after this user's,
so a later-enumerated message silently overwrites an earlier one with an
equal timestamp), the object's keys are pairwise distinct (at most one
entry per timestamp survives into the rendered list), and the surviving
value is the one that appears in the `bubble` output that is rendered. -/
theorem C10_equal_timestamps_last_write_wins (yours others : List ChatMsg) (t : Int) :
    objGetI (buildToAdd yours others) t = lastWrite (yours ++ others) t ∧
    List.Nodup (List.map Prod.fst (buildToAdd yours others)) ∧
    (∀ v : String × Nat, objGetI (buildToAdd yours others) t = some v →
      v ∈ bubble (buildToAdd yours others)) := by
  refine ⟨?_, ?_, ?_⟩
  · unfold buildToAdd
    rw [objGetI_foldl_writes]
    cases lastWrite (yours ++ others) t <;> rfl
  · exact List.Pairwise.imp (fun hab => ne_of_lt hab) (buildToAdd_sorted yours others)
  · intro v hv
    rw [bubble_eq_reverse_values]
    simp only [List.mem_reverse]
    exact objGetI_mem _ t v hv

/-- Closed witness for C10: two distinct messages share timestamp 7; only
the later-enumerated one (from the other user's collection) survives and
is rendered. -/
theorem C10_witness :
    objGetI (buildToAdd [ChatMsg.mk "mine" 7 1] [ChatMsg.mk "theirs" 7 2]) 7 =
      lastWrite ([ChatMsg.mk "mine" 7 1] ++ [ChatMsg.mk "theirs" 7 2]) 7 ∧
    objGetI (buildToAdd [ChatMsg.mk "mine" 7 1] [ChatMsg.mk "theirs" 7 2]) 7 =
      some ("theirs", 2) ∧
    ("theirs", 2) ∈ bubble (buildToAdd [ChatMsg.mk "mine" 7 1] [ChatMsg.mk "theirs" 7 2]) :=
  ⟨(C10_equal_timestamps_last_write_wins [ChatMsg.mk "mine" 7 1] [ChatMsg.mk "theirs" 7 2] 7).1,
    by decide,
    (C10_equal_timestamps_last_write_wins [ChatMsg.mk "mine" 7 1] [ChatMsg.mk "theirs" 7 2] 7).2.2
      ("theirs", 2) (by decide)⟩

end Chat

namespace Chat

theorem eraseNode_cons_self (d : List MsgNode) (side : Bool) (z : Nat) (t : String) :
    eraseNode (MsgNode.mk side z t :: d) side z = d := by
  simp [eraseNode]

theorem eraseNode_cons_skip (x : MsgNode) (d : List MsgNode) (side : Bool) (z : Nat)
    (h : (x.yours == side && x.idx == z) = false) :
    eraseNode (x :: d) side z = x :: eraseNode d side z := by
  simp only [eraseNode, List.eraseP_cons, h]
  rfl

theorem removeFrom_other_side (x : MsgNode) (d : List MsgNode) (side : Bool) (a n : Nat)
    (h : ¬ x.yours = side) :
    removeFrom (x :: d) side a n = x :: removeFrom d side a n := by
  induction n generalizing d a with
  | zero => rfl
  | succ n ih =>
    have hs : (x.yours == side && x.idx == a) = false := by
      simp [h]
    simp only [removeFrom]
    rw [eraseNode_cons_skip x d side a hs]
    exact ih _ _

theorem dispFold_counts_ge (yid : Nat) (L : List (String × Nat)) (yi oi : Nat) :
    yi ≤ (dispFold yid yi oi L).2.1 ∧ oi ≤ (dispFold yid yi oi L).2.2 := by
  induction L generalizing yi oi with
  | nil => exact ⟨Nat.le_refl _, Nat.le_refl _⟩
  | cons v rest ih =>
    obtain ⟨t, sender⟩ := v
    by_cases h : sender = yid
    · simp only [dispFold, if_pos h]
      have hr := ih (yi + 1) oi
      exact ⟨Nat.le_trans (Nat.le_succ yi) hr.1, hr.2⟩
    · simp only [dispFold, if_neg h]
      have hr := ih yi (oi + 1)
      exact ⟨hr.1, Nat.le_trans (Nat.le_succ oi) hr.2⟩

theorem removeFrom_dispFold (yid : Nat) (L : List (String × Nat)) (yi oi : Nat) :
    removeFrom (removeFrom (dispFold yid yi oi L).1 true (yi + 1)
        ((dispFold yid yi oi L).2.1 - yi)) false (oi + 1)
      ((dispFold yid yi oi L).2.2 - oi) = [] := by
  induction L generalizing yi oi with
  | nil => simp [dispFold, removeFrom]
  | cons v rest ih =>
    obtain ⟨t, sender⟩ := v
    by_cases h : sender = yid
    · simp only [dispFold, if_pos h]
      have hge := (dispFold_counts_ge yid rest (yi + 1) oi).1
      have hc : (dispFold yid (yi + 1) oi rest).2.1 - yi =
          ((dispFold yid (yi + 1) oi rest).2.1 - (yi + 1)) + 1 := by omega
      rw [hc]
      simp only [removeFrom]
      rw [eraseNode_cons_self]
      exact ih (yi + 1) oi
    · simp only [dispFold, if_neg h]
      have hge := (dispFold_counts_ge yid rest yi (oi + 1)).2
      rw [removeFrom_other_side _ _ _ _ _ (by simp)]
      have hc : (dispFold yid yi (oi + 1) rest).2.2 - oi =
          ((dispFold yid yi (oi + 1) rest).2.2 - (oi + 1)) + 1 := by omega
      rw [hc]
      simp only [removeFrom]
      rw [eraseNode_cons_self]
      exact ih yi (oi + 1)

/-- C5: the chat merge/sort/render step is idempotent: run from a state
with empty render counters and an empty message container, running
`message_order` a second time on the same two collections reproduces
exactly the same page state (same rendered nodes, same counters — no
duplicate and no stale nodes), and the ordered output list it renders is
identical between the two runs. -/
theorem C5_message_order_idempotent (s : ChatState)
    (h1 : s.your_ind = 0) (h2 : s.other_ind = 0) (h3 : s.dom = []) :
    message_order (message_order s) = message_order s ∧
    bubble (buildToAdd (message_order s).yoursMessages (message_order s).othersMessages) =
      bubble (buildToAdd s.yoursMessages s.othersMessages) := by
  refine ⟨?_, rfl⟩
  have hs1 : message_order s =
      { s with
        dom := (dispFold s.yoursId 0 0 (bubble (buildToAdd s.yoursMessages s.othersMessages))).1,
        your_ind := (dispFold s.yoursId 0 0
          (bubble (buildToAdd s.yoursMessages s.othersMessages))).2.1,
        other_ind := (dispFold s.yoursId 0 0
          (bubble (buildToAdd s.yoursMessages s.othersMessages))).2.2 } := by
    simp [message_order, h1, h2, h3, removeFrom]
  rw [hs1]
  have hrm := removeFrom_dispFold s.yoursId
    (bubble (buildToAdd s.yoursMessages s.othersMessages)) 0 0
  simp only [Nat.sub_zero, Nat.zero_add] at hrm
  simp [message_order, hrm]

/-- Closed witness for C5 at a concrete two-message chat state. -/
theorem C5_witness :
    message_order (message_order
        (ChatState.mk 1 2 [ChatMsg.mk "hi" 5 1] [ChatMsg.mk "yo" 7 2] 0 0 [])) =
      message_order (ChatState.mk 1 2 [ChatMsg.mk "hi" 5 1] [ChatMsg.mk "yo" 7 2] 0 0 []) ∧
    bubble (buildToAdd
        (message_order (ChatState.mk 1 2 [ChatMsg.mk "hi" 5 1] [ChatMsg.mk "yo" 7 2] 0 0
          [])).yoursMessages
        (message_order (ChatState.mk 1 2 [ChatMsg.mk "hi" 5 1] [ChatMsg.mk "yo" 7 2] 0 0
          [])).othersMessages) =
      bubble (buildToAdd [ChatMsg.mk "hi" 5 1] [ChatMsg.mk "yo" 7 2]) :=
  C5_message_order_idempotent
    (ChatState.mk 1 2 [ChatMsg.mk "hi" 5 1] [ChatMsg.mk "yo" 7 2] 0 0 []) rfl rfl rfl

end Chat

namespace Home

theorem lbLoop_acc (leaders : List (String × Nat)) (t : List LRow) (x : Nat) :
    lbLoop t x leaders = t ++ lbLoop [] x leaders := by
  induction leaders generalizing t x with
  | nil => simp [lbLoop]
  | cons e rest ih =>
    obtain ⟨u, p⟩ := e
    simp only [lbLoop]
    rw [ih (t ++ [LRow.mk (x + 1) u p]) (x + 1), ih ([] ++ [LRow.mk (x + 1) u p]) (x + 1)]
    simp

end Home

namespace Dictionary

theorem dictLoop_acc (l : List DictEntry) (acc : List (Nat × DictEntry)) (x : Nat) :
    dictLoop acc x l = (acc ++ (dictLoop [] x l).1, (dictLoop [] x l).2) := by
  induction l generalizing acc x with
  | nil => simp [dictLoop]
  | cons e rest ih =>
    simp only [dictLoop]
    rw [ih (acc ++ [(x + 1, e)]) (x + 1), ih ([] ++ [(x + 1, e)]) (x + 1)]
    simp

theorem dictLoop_count (l : List DictEntry) (acc : List (Nat × DictEntry)) (x : Nat) :
    (dictLoop acc x l).2 = x + l.length := by
  induction l generalizing acc x with
  | nil => simp [dictLoop]
  | cons e rest ih =>
    simp only [dictLoop]
    rw [ih (acc ++ [(x + 1, e)]) (x + 1)]
    simp [Nat.add_comm, Nat.add_assoc, Nat.add_left_comm]

theorem eraseBox_cons_self (d : List (Nat × DictEntry)) (z : Nat) (e : DictEntry) :
    eraseBox ((z, e) :: d) z = d := by
  simp [eraseBox]

theorem removeBoxes_dictLoop (l : List DictEntry) (x : Nat) :
    removeBoxes (dictLoop [] x l).1 (x + 1) ((dictLoop [] x l).2 - x) = [] := by
  induction l generalizing x with
  | nil => simp [dictLoop, removeBoxes]
  | cons e rest ih =>
    simp only [dictLoop]
    rw [dictLoop_acc rest ([] ++ [(x + 1, e)]) (x + 1)]
    have hc : (x + 1 + rest.length) - x = rest.length + 1 := by omega
    rw [dictLoop_count rest [] (x + 1)]
    simp only [List.nil_append, List.singleton_append, hc]
    simp only [removeBoxes]
    rw [eraseBox_cons_self]
    have hr := ih (x + 1)
    rw [dictLoop_count rest [] (x + 1)] at hr
    have hc2 : (x + 1 + rest.length) - (x + 1) = rest.length := by omega
    rw [hc2] at hr
    exact hr

end Dictionary

namespace Profile

theorem fuLoop_acc (people : List (Nat × String)) (region : List UserRow) (x : Nat) :
    fuLoop region x people = region ++ fuLoop [] x people := by
  induction people generalizing region x with
  | nil => simp [fuLoop]
  | cons e rest ih =>
    obtain ⟨uid, uname⟩ := e
    simp only [fuLoop]
    rw [ih (region ++ [UserRow.mk x uname uid]) (x + 1), ih ([] ++ [UserRow.mk x uname uid]) (x + 1)]
    simp

end Profile

/-- C6 (amended): only the dictionary controller clears and fully
rebuilds its region — from any state whose region is a previous render,
`dictionary_results` makes the rendered boxes a function of the incoming
payload alone.  The home-page leaderboard handler and the profile
`found_users` handler never clear: each run leaves every existing row in
place and appends the payload-built rows after them. -/
theorem C6_rebuild_only_dictionary :
    (∀ (s : Dictionary.DictState) (prev entries : List Dictionary.DictEntry),
      s.region = (Dictionary.dictLoop [] 0 prev).1 →
      s.current_index = (Dictionary.dictLoop [] 0 prev).2 →
      (Dictionary.dictionary_results s entries).region = (Dictionary.dictLoop [] 0 entries).1 ∧
      (Dictionary.dictionary_results s entries).current_index =
        (Dictionary.dictLoop [] 0 entries).2) ∧
    (∀ (table : List Home.LRow) (leaders : List (String × Nat)),
      Home.leaderboard_handler table leaders = table ++ Home.leaderboard_handler [] leaders) ∧
    (∀ (region : List Profile.UserRow) (people : List (Nat × String)),
      Profile.found_users region people = region ++ Profile.found_users [] people) := by
  refine ⟨?_, ?_, ?_⟩
  · intro s prev entries h1 h2
    have hclear : Dictionary.removeBoxes s.region 1 s.current_index = [] := by
      rw [h1, h2]
      have := Dictionary.removeBoxes_dictLoop prev 0
      simpa using this
    constructor
    · simp [Dictionary.dictionary_results, hclear]
    · simp [Dictionary.dictionary_results, hclear]
  · intro table leaders
    exact Home.lbLoop_acc leaders table 0
  · intro region people
    exact Profile.fuLoop_acc people region 0

/-- Counterexample for C6 as frozen: running the leaderboard handler from
a table that already holds the rows of a previous render does not yield
the same region as running it from an empty table on the same payload —
the previous rows are retained, so the region is not a function of the
payload alone. -/
theorem C6_counterexample_leaderboard_retains :
    Home.leaderboard_handler (Home.leaderboard_handler [] [("alice", 3)]) [("alice", 3)] ≠
      Home.leaderboard_handler [] [("alice", 3)] := by
  decide

/-- Closed witness for the amended C6 at concrete states. -/
theorem C6_witness :
    ((Dictionary.dictionary_results
        (Dictionary.DictState.mk 1 [(1, Dictionary.DictEntry.mk "a" [] [])])
        [Dictionary.DictEntry.mk "b" ["r"] ["m"]]).region =
      (Dictionary.dictLoop [] 0 [Dictionary.DictEntry.mk "b" ["r"] ["m"]]).1) ∧
    (Home.leaderboard_handler [Home.LRow.mk 1 "old" 9] [("alice", 3)] =
      [Home.LRow.mk 1 "old" 9] ++ Home.leaderboard_handler [] [("alice", 3)]) ∧
    (Profile.found_users [Profile.UserRow.mk 0 "old" 4] [(7, "new")] =
      [Profile.UserRow.mk 0 "old" 4] ++ Profile.found_users [] [(7, "new")]) :=
  ⟨(C6_rebuild_only_dictionary.1
      (Dictionary.DictState.mk 1 [(1, Dictionary.DictEntry.mk "a" [] [])])
      [Dictionary.DictEntry.mk "a" [] []] [Dictionary.DictEntry.mk "b" ["r"] ["m"]]
      rfl rfl).1,
    C6_rebuild_only_dictionary.2.1 [Home.LRow.mk 1 "old" 9] [("alice", 3)],
    C6_rebuild_only_dictionary.2.2 [Profile.UserRow.mk 0 "old" 4] [(7, "new")]⟩

namespace Matching

theorem indexOf?_of_mem (l : List Card) (a : Card) (h : a ∈ l) :
    List.indexOf? a l = some (List.indexOf a l) := by
  induction l with
  | nil => simp at h
  | cons x rest ih =>
    rw [List.indexOf?_cons, List.indexOf_cons]
    by_cases hx : (x == a) = true
    · simp [hx]
    · have ha : a ∈ rest := by
        rcases List.mem_cons.mp h with h1 | h1
        · exact absurd (by simp [h1]) hx
        · exact h1
      simp [hx, ih ha]

theorem spliceIndexOf_of_mem (l : List Card) (a : Card) (h : a ∈ l) :
    spliceIndexOf l a = l.erase a := by
  unfold spliceIndexOf
  rw [indexOf?_of_mem l a h]
  simp

/-- C7: when the second card of a selection is chosen, `check` compares
the two selected entries: equal pairing keys permanently disable exactly
those two cards (class `disabled_correct`, empty `onclick`), move both
entries into `found` and add the fixed 2-point award, keeping them
locked; different keys re-enable exactly those two cards (class
`match_card`, selecting `onclick`), remove exactly those two entries
from the locked list and leave the score and `found` unchanged; in both
cases the selected list is empty afterwards.  (The separate
deck-completion teardown, triggered when `found` reaches all 10 cards,
is excluded by hypothesis.) -/
theorem C7_check_second_card (s : MatchState) (a b : Card)
    (hsel : s.selected = [a, b])
    (hlen : s.cards.length = s.characters.length)
    (ha : a ∈ s.characters) (hb : b ∈ s.characters)
    (hab : a ≠ b)
    (hana : a ∈ s.not_allowed) (hbna : b ∈ s.not_allowed) (hnal : s.not_allowed.Nodup)
    (hf : s.found.length + 2 ≠ 10) (hf2 : s.found.length ≠ 10) :
    (check s).selected = [] ∧
    (a.2 = b.2 →
      (check s).found = s.found ++ [a, b] ∧
      (check s).points = s.points + 2 ∧
      (check s).not_allowed = s.not_allowed ∧
      (check s).cards[List.indexOf a s.characters]? = some (CardUI.mk "disabled_correct" false) ∧
      (check s).cards[List.indexOf b s.characters]? = some (CardUI.mk "disabled_correct" false) ∧
      (∀ j : Nat, j ≠ List.indexOf a s.characters → j ≠ List.indexOf b s.characters →
        (check s).cards[j]? = s.cards[j]?)) ∧
    (¬ a.2 = b.2 →
      (check s).found = s.found ∧
      (check s).points = s.points ∧
      (check s).cards[List.indexOf a s.characters]? = some (CardUI.mk "match_card" true) ∧
      (check s).cards[List.indexOf b s.characters]? = some (CardUI.mk "match_card" true) ∧
      (∀ j : Nat, j ≠ List.indexOf a s.characters → j ≠ List.indexOf b s.characters →
        (check s).cards[j]? = s.cards[j]?) ∧
      a ∉ (check s).not_allowed ∧ b ∉ (check s).not_allowed ∧
      (∀ c : Card, c ∈ s.not_allowed → c ≠ a → c ≠ b → c ∈ (check s).not_allowed) ∧
      (∀ c : Card, c ∈ (check s).not_allowed → c ∈ s.not_allowed)) := by
  have hck : check s = checkPair s a b := by
    unfold check
    rw [hsel]
  have hi : List.indexOf a s.characters < s.cards.length := by
    rw [hlen]
    exact List.indexOf_lt_length.mpr ha
  have hj : List.indexOf b s.characters < s.cards.length := by
    rw [hlen]
    exact List.indexOf_lt_length.mpr hb
  have hij : List.indexOf a s.characters ≠ List.indexOf b s.characters :=
    fun he => hab ((List.indexOf_inj ha hb).mp he)
  have hfound : ¬ ((s.found ++ [a, b]).length = 10) := by
    rw [List.length_append]
    simpa using hf
  have hba : b ≠ a := fun h => hab h.symm
  have hsplice : spliceIndexOf (spliceIndexOf s.not_allowed a) b =
      (s.not_allowed.erase a).erase b := by
    rw [spliceIndexOf_of_mem s.not_allowed a hana,
      spliceIndexOf_of_mem _ b ((List.mem_erase_of_ne hba).mpr hbna)]
  have hstateEq : a.2 = b.2 → checkPair s a b =
      { characters := s.characters, points := s.points + 2, selected := [],
        not_allowed := s.not_allowed, found := s.found ++ [a, b],
        cards := (s.cards.set (List.indexOf a s.characters)
            (CardUI.mk "disabled_correct" false)).set (List.indexOf b s.characters)
            (CardUI.mk "disabled_correct" false),
        resultText := "Correct!", pointsText := "Points: " ++ toString (s.points + 2),
        emitted := s.emitted } := by
    intro h2
    simp [checkPair, h2, List.length_append, hf]
  have hstateNe : ¬ a.2 = b.2 → checkPair s a b =
      { characters := s.characters, points := s.points, selected := [],
        not_allowed := spliceIndexOf (spliceIndexOf s.not_allowed a) b, found := s.found,
        cards := (s.cards.set (List.indexOf a s.characters)
            (CardUI.mk "match_card" true)).set (List.indexOf b s.characters)
            (CardUI.mk "match_card" true),
        resultText := "Incorrect!", pointsText := s.pointsText,
        emitted := s.emitted } := by
    intro h2
    simp [checkPair, h2, hf2]
  refine ⟨?_, ?_, ?_⟩
  · rw [hck]
    by_cases h2 : a.2 = b.2
    · rw [hstateEq h2]
    · rw [hstateNe h2]
  · intro h2
    rw [hck, hstateEq h2]
    refine ⟨rfl, rfl, rfl, ?_, ?_, ?_⟩
    · rw [List.getElem?_set_ne (fun he => hij he.symm), List.getElem?_set_self (by simpa using hi)]
    · rw [List.getElem?_set_self (by simpa using hj)]
    · intro j hja hjb
      rw [List.getElem?_set_ne (fun he => hjb he.symm),
        List.getElem?_set_ne (fun he => hja he.symm)]
  · intro h2
    rw [hck, hstateNe h2]
    refine ⟨rfl, rfl, ?_, ?_, ?_, ?_, ?_, ?_, ?_⟩
    · rw [List.getElem?_set_ne (fun he => hij he.symm), List.getElem?_set_self (by simpa using hi)]
    · rw [List.getElem?_set_self (by simpa using hj)]
    · intro j hja hjb
      rw [List.getElem?_set_ne (fun he => hjb he.symm),
        List.getElem?_set_ne (fun he => hja he.symm)]
    · rw [hsplice]
      intro hmem
      exact (hnal.not_mem_erase) (List.mem_of_mem_erase hmem)
    · rw [hsplice]
      exact (hnal.erase a).not_mem_erase
    · intro c hc hca hcb
      rw [hsplice]
      exact (List.mem_erase_of_ne hcb).mpr ((List.mem_erase_of_ne hca).mpr hc)
    · intro c hc
      rw [hsplice] at hc
      exact List.mem_of_mem_erase (List.mem_of_mem_erase hc)

end Matching

namespace Matching

/-- Closed witness for C7: a matching pair at a concrete two-card
state — both cards disabled, both entries moved into `found`, two points
awarded, selection cleared. -/
theorem C7_witness :
    (check (MatchState.mk [("KA", "ka"), ("ka", "ka")] 0
        [("KA", "ka"), ("ka", "ka")] [("KA", "ka"), ("ka", "ka")] []
        [CardUI.mk "disabled_selected" true, CardUI.mk "disabled_selected" true]
        "" "" [])).selected = [] ∧
    (check (MatchState.mk [("KA", "ka"), ("ka", "ka")] 0
        [("KA", "ka"), ("ka", "ka")] [("KA", "ka"), ("ka", "ka")] []
        [CardUI.mk "disabled_selected" true, CardUI.mk "disabled_selected" true]
        "" "" [])).found = [] ++ [("KA", "ka"), ("ka", "ka")] ∧
    (check (MatchState.mk [("KA", "ka"), ("ka", "ka")] 0
        [("KA", "ka"), ("ka", "ka")] [("KA", "ka"), ("ka", "ka")] []
        [CardUI.mk "disabled_selected" true, CardUI.mk "disabled_selected" true]
        "" "" [])).points = 0 + 2 := by
  have T := C7_check_second_card
    (MatchState.mk [("KA", "ka"), ("ka", "ka")] 0
      [("KA", "ka"), ("ka", "ka")] [("KA", "ka"), ("ka", "ka")] []
      [CardUI.mk "disabled_selected" true, CardUI.mk "disabled_selected" true]
      "" "" [])
    ("KA", "ka") ("ka", "ka") rfl rfl (by decide) (by decide) (by decide)
    (by decide) (by decide) (by decide) (by decide) (by decide)
  exact ⟨T.1, (T.2.1 rfl).1, (T.2.1 rfl).2.1⟩

end Matching
